import Mathlib

/-!
Verification of the feature-extraction pipeline of the
`test-spring-petclinic` build-outcome data collector.

The repository has two scripts:
- `historical_collector.py` (batch mode): walks the whole commit history,
  computing churn (`get_code_churn`), a heuristic SLOC count
  (`get_sloc_simple`) and assembling one row per commit over the
  `FEATURE_COLS` schema via `pd.DataFrame(..., columns=FEATURE_COLS).fillna(0)`.
- `predict.py` (incremental mode): computes one row for the current commit,
  with its own `get_code_churn`, a cloc-backed `get_sloc_and_test_lines`,
  and `get_project_history`, assembled over its local `feature_cols` list.

The embedding below models these functions over explicit inputs: the
strings returned by the git collaborator commands, the decoded cloc JSON,
the decoded workflow-run listings, the working-tree contents seen by
`os.walk`, and the clock reading.  Machine integers are `Int`/`Nat`
(Python ints are unbounded, so no wrap-around modelling is needed) and
true division is `Rat`.  A Python exception escaping a function is
modelled by an `Option` result being `none`.
-/

namespace PetclinicVerif

/-- Cell values appearing in a feature row: pandas stores the integers,
ratios and id strings of this pipeline; `fillna(0)` fills absent cells
with the integer 0. -/
inductive Value where
  | int (n : Int)
  | rat (q : Rat)
  | str (s : String)
deriving DecidableEq, Repr

/-- Split a character list at every character satisfying `p`; like
Python `str.split(sep)` for a one-character separator, empty pieces
kept.  (Executable replacement for the runtime's substring-based split,
so that concrete instances evaluate inside proofs.) -/
def splitCharsBy (p : Char → Bool) : List Char → List (List Char)
  | [] => [[]]
  | c :: rest =>
    match splitCharsBy p rest with
    | [] => [[]]
    | r :: rs => if p c then [] :: r :: rs else (c :: r) :: rs

/-- Python `s.split(sep)` for a one-character separator. -/
def pySplitChar (sep : Char) (s : String) : List String :=
  (splitCharsBy (fun c => c = sep) s.toList).map String.mk

/-- Strip leading and trailing whitespace from a character list. -/
def trimChars (cs : List Char) : List Char :=
  ((cs.dropWhile Char.isWhitespace).reverse.dropWhile Char.isWhitespace).reverse

/-- Python `str.strip()` with no argument. -/
def pyStrip (s : String) : String :=
  String.mk (trimChars s.toList)

/-- Python `str.startswith` for a single candidate. -/
def pyStartsWith (s pre : String) : Bool :=
  pre.toList.isPrefixOf s.toList

/-- Python `str.endswith` for a single candidate. -/
def pyEndsWith (s suf : String) : Bool :=
  suf.toList.isSuffixOf s.toList

/-- Python `str.lower()` (ASCII). -/
def pyLower (s : String) : String :=
  String.mk (s.toList.map Char.toLower)

/-- Python `str.split()` with no argument: split on whitespace,
discarding empty pieces. -/
def splitWS (s : String) : List String :=
  ((splitCharsBy Char.isWhitespace s.toList).map String.mk).filter
    (fun p => p ≠ "")

/-- Python `str.isdigit` restricted to ASCII input: non-empty and all
characters are decimal digits. -/
def isDigitStr (s : String) : Bool :=
  !s.toList.isEmpty && s.toList.all Char.isDigit

/-- Numeric value of a decimal digit run. -/
def digitsToNat (cs : List Char) : Nat :=
  cs.foldl (fun n c => n * 10 + (c.toNat - 48)) 0

/-- Numeric value of a character list when it is a non-empty decimal
digit run, `none` otherwise. -/
def digitsToNatOpt (cs : List Char) : Option Nat :=
  if !cs.isEmpty && cs.all Char.isDigit then some (digitsToNat cs) else none

/-- Python `int(s)` for strings, as a fallible conversion: optional
surrounding whitespace, optional sign, then a non-empty digit run;
anything else raises a `ValueError`, modelled as `none`. -/
def pyInt (s : String) : Option Int :=
  match trimChars s.toList with
  | [] => none
  | c :: rest =>
    if c = '-' then (digitsToNatOpt rest).map (fun n => -(n : Int))
    else if c = '+' then (digitsToNatOpt rest).map (fun n => (n : Int))
    else (digitsToNatOpt (c :: rest)).map (fun n => (n : Int))

/-- Bool test that `pat` occurs as a contiguous substring of `s`
(Python `pat in s`). -/
def containsSub (s pat : String) : Bool :=
  (List.range (s.toList.length + 1)).any
    (fun i => pat.toList.isPrefixOf (s.toList.drop i))

/-- The path-classification rule shared by both churn variants:
`"test" in path.lower()`. -/
def pathIsTest (path : String) : Bool :=
  containsSub (pyLower path) "test"

/-- Last-writer-wins lookup across a sequence of dicts merged with
Python `dict.update`: a key found in a later map shadows earlier maps. -/
def lookupMerged (maps : List (List (String × Value))) (c : String) : Option Value :=
  maps.foldl (fun acc m => match m.lookup c with | some v => some v | none => acc) none

/-- `pd.DataFrame(rows, columns=cols).fillna(0)` on one row built from
merged partial dicts: the emitted row holds exactly the fields of `cols`,
in the order of `cols`; a field no map supplies becomes the integer 0;
keys outside `cols` are dropped. -/
def assembleRow (cols : List String) (maps : List (List (String × Value))) :
    List (String × Value) :=
  cols.map (fun c => (c, (lookupMerged maps c).getD (Value.int 0)))

/-- The canonical ordered output schema as the spec's external-interface
section lists it (spec model, for comparison with the code's lists). -/
def canonicalSchema : List String :=
  ["commit_sha", "commit_date", "src_churn", "files_added", "files_deleted",
   "files_modified", "test_churn", "tests_added", "tests_deleted", "team_size",
   "sloc", "test_lines_per_kloc", "num_commit_comments", "committers",
   "prev_pass", "elapsed_days_last_build", "project_fail_history",
   "project_fail_recent", "commit_interval", "project_age"]

namespace HistoricalCollector

/-- `FEATURE_COLS` of `historical_collector.py`. -/
def FEATURE_COLS : List String :=
  ["commit_sha", "commit_date", "src_churn", "files_added", "files_deleted",
   "files_modified", "test_churn", "tests_added", "tests_deleted", "team_size",
   "sloc", "test_lines_per_kloc", "num_commit_comments", "committers",
   "prev_pass", "elapsed_days_last_build", "project_fail_history",
   "project_fail_recent", "commit_interval", "project_age"]

/-- The dict returned by `get_code_churn`: it carries exactly the three
keys `src_churn`, `files_modified`, `test_churn`. -/
structure ChurnFeatures where
  src_churn : Int
  files_modified : Int
  test_churn : Int
deriving DecidableEq, Repr

/-- The initial `features` dict of `get_code_churn`: all three keys 0. -/
def churnZero : ChurnFeatures := ⟨0, 0, 0⟩

/-- The four churn accumulators of the `get_code_churn` loop. -/
structure ChurnAcc where
  srcIns : Nat
  srcDel : Nat
  testIns : Nat
  testDel : Nat
deriving DecidableEq, Repr

/-- One iteration of the `get_code_churn` loop over a `--numstat` line:
split on TAB, skip lines with fewer than three fields, accumulate only
when both count columns are all-digit strings, routing by the test-path
substring rule. -/
def churnStep (acc : ChurnAcc) (line : String) : ChurnAcc :=
  match pySplitChar '\t' line with
  | p0 :: p1 :: p2 :: _ =>
    if isDigitStr p0 && isDigitStr p1 then
      let ins := digitsToNat p0.toList
      let del := digitsToNat p1.toList
      if pathIsTest p2 then
        { acc with testIns := acc.testIns + ins, testDel := acc.testDel + del }
      else
        { acc with srcIns := acc.srcIns + ins, srcDel := acc.srcDel + del }
    else acc
  | _ => acc

/-- `get_code_churn(commit_sha, repo_path)` as a function of the two
collaborator outputs it consumes: the (stripped) stdout of
`git rev-list --parents -n 1 <sha>` and of `git diff --numstat <sha>~1 <sha>`.
A failed command yields `""` (see `run_command`). -/
def get_code_churn (revListOutput diffOutput : String) : ChurnFeatures :=
  if (splitWS revListOutput).length < 2 then churnZero
  else if diffOutput = "" then churnZero
  else
    let lines := pySplitChar '\n' diffOutput
    let acc := lines.foldl churnStep ⟨0, 0, 0, 0⟩
    { src_churn := ((acc.srcIns + acc.srcDel : Nat) : Int),
      test_churn := ((acc.testIns + acc.testDel : Nat) : Int),
      files_modified := (lines.length : Int) }

/-- The churn dict as a partial field map handed to the assembler. -/
def churnToMap (c : ChurnFeatures) : List (String × Value) :=
  [("src_churn", Value.int c.src_churn),
   ("files_modified", Value.int c.files_modified),
   ("test_churn", Value.int c.test_churn)]

/-- One `(root, files)` pair yielded by `os.walk`, with each readable
file's name and its list of lines (`f.readlines()` content). -/
structure WalkEntry where
  root : String
  files : List (String × List String)
deriving DecidableEq, Repr

/-- The extension set of `get_sloc_simple`. -/
def sourceExtensions : List String := [".java", ".xml", ".properties"]

/-- The per-line test of the `get_sloc_simple` inner loop: strip the
line, keep it when non-empty and not starting with one of the four
single-line comment markers. -/
def lineCounts (line : String) : Bool :=
  let stripped := pyStrip line
  stripped ≠ "" &&
    !(pyStartsWith stripped "//" || pyStartsWith stripped "*" ||
      pyStartsWith stripped "/*" || pyStartsWith stripped "#")

/-- The line-counting loop of `get_sloc_simple` over one file's lines. -/
def slocLines (lines : List String) : Nat :=
  lines.foldl (fun acc line => if lineCounts line then acc + 1 else acc) 0

/-- The per-file body of the `get_sloc_simple` walk: a file whose name
ends in one of `sourceExtensions` contributes its countable lines. -/
def slocFileStep (a : Nat) (f : String × List String) : Nat :=
  if sourceExtensions.any (fun ext => pyEndsWith f.1 ext) then
    a + slocLines f.2
  else a

/-- The per-directory body of the `get_sloc_simple` walk: a directory
whose path contains `".git"` anywhere is skipped wholesale
(`if '.git' in root: continue`). -/
def slocEntryStep (acc : Nat) (e : WalkEntry) : Nat :=
  if containsSub e.root ".git" then acc
  else e.files.foldl slocFileStep acc

/-- `get_sloc_simple(repo_path)` as a function of the `os.walk` listing. -/
def get_sloc_simple (tree : List WalkEntry) : Nat :=
  tree.foldl slocEntryStep 0

/-- Everything the batch per-commit loop body consumes for one commit:
the commit fields from the hosting API, the two git command outputs
(`""` when the command failed), and the working-tree listing as `os.walk`
sees it after the (attempted) checkout. -/
structure CommitCtx where
  sha : String
  date : String
  revListOut : String
  diffOut : String
  tree : List WalkEntry
deriving DecidableEq, Repr

/-- The `features` dict built for one commit in `main`:
`{'commit_sha': ..., 'commit_date': ...}` updated with the churn dict and
the sloc dict (disjoint key sets, so concatenation is the merge). -/
def processCommit (c : CommitCtx) : List (String × Value) :=
  [("commit_sha", Value.str c.sha), ("commit_date", Value.str c.date)] ++
    churnToMap (get_code_churn c.revListOut c.diffOut) ++
    [("sloc", Value.int (get_sloc_simple c.tree))]

/-- The batch walk: one assembled `FEATURE_COLS` row per enumerated
commit, in order (`pd.DataFrame(all_features_list, columns=FEATURE_COLS).fillna(0)`). -/
def collectRows (commits : List CommitCtx) : List (List (String × Value)) :=
  commits.map (fun c => assembleRow FEATURE_COLS [processCommit c])

end HistoricalCollector

namespace Predict

/-- The local `feature_cols` list of `predict.py`. -/
def feature_cols : List String :=
  ["src_churn", "files_added", "files_deleted", "files_modified",
   "test_churn", "tests_added", "tests_deleted", "team_size", "sloc",
   "test_lines_per_kloc", "num_commit_comments", "committers", "prev_pass",
   "elapsed_days_last_build", "project_fail_history", "project_fail_recent",
   "commit_interval", "project_age"]

/-- The seven-key dict of `predict.py`'s `get_code_churn`. -/
structure ChurnFeatures where
  src_churn : Int
  files_added : Int
  files_deleted : Int
  files_modified : Int
  test_churn : Int
  tests_added : Int
  tests_deleted : Int
deriving DecidableEq, Repr

/-- The initial `features` dict of `predict.py`'s `get_code_churn`. -/
def churnZero : ChurnFeatures := ⟨0, 0, 0, 0, 0, 0, 0⟩

/-- The signed accumulators of the incremental churn loop (`int()` can
produce negative values in principle, so the accumulators are `Int`). -/
structure ChurnAcc where
  srcIns : Int
  srcDel : Int
  testIns : Int
  testDel : Int
deriving DecidableEq, Repr

/-- One iteration of `predict.py`'s churn loop: lines with fewer than
three TAB fields are skipped, but `int(parts[0])` / `int(parts[1])` are
applied unguarded, so a non-numeric count column raises — modelled as
`none`. -/
def churnStep (acc : ChurnAcc) (line : String) : Option ChurnAcc :=
  match pySplitChar '\t' line with
  | p0 :: p1 :: p2 :: _ =>
    match pyInt p0, pyInt p1 with
    | some ins, some del =>
      if pathIsTest p2 then
        some { acc with testIns := acc.testIns + ins, testDel := acc.testDel + del }
      else
        some { acc with srcIns := acc.srcIns + ins, srcDel := acc.srcDel + del }
    | _, _ => none
  | _ => some acc

/-- `predict.py`'s `get_code_churn()` as a function of the stripped
stdout of `git diff --numstat HEAD~1 HEAD` (`""` when the command
failed).  `none` models the uncaught `ValueError` escaping the call. -/
def get_code_churn (diffOutput : String) : Option ChurnFeatures :=
  if diffOutput = "" then some churnZero
  else
    let lines := pySplitChar '\n' diffOutput
    (lines.foldlM churnStep ⟨0, 0, 0, 0⟩).map
      (fun acc =>
        { churnZero with
          src_churn := acc.srcIns + acc.srcDel,
          test_churn := acc.testIns + acc.testDel,
          files_modified := (lines.length : Int) })

/-- Language names treated as test frameworks by
`get_sloc_and_test_lines`. -/
def testLangNames : List String := ["junit", "testng", "unittest"]

/-- The dict returned by `get_sloc_and_test_lines`. -/
structure SlocFeatures where
  sloc : Int
  test_lines_per_kloc : Rat
deriving DecidableEq, Repr

/-- One iteration of the `(total_code_lines, test_code_lines)`
accumulation over the per-language cloc entries: a language whose
lowercased name is a test framework feeds the test counter, every other
language the total (`stats.get('code', 0)` is the `getD 0`). -/
def slocStep (p : Nat × Nat) (kv : String × Option Nat) : Nat × Nat :=
  if testLangNames.contains (pyLower kv.1) then (p.1, p.2 + (kv.2).getD 0)
  else (p.1 + (kv.2).getD 0, p.2)

/-- The accumulation loop of `get_sloc_and_test_lines`. -/
def slocFold (langStats : List (String × Option Nat)) : Nat × Nat :=
  langStats.foldl slocStep (0, 0)

/-- `get_sloc_and_test_lines()` as a function of the decoded cloc JSON:
`none` models empty output or a JSON/key error (both leave the zero
defaults); otherwise the entries are `(language, code-count)` pairs, the
count `none` when the entry has no `code` key (`stats.get('code', 0)`). -/
def get_sloc_and_test_lines (clocData : Option (List (String × Option Nat))) :
    SlocFeatures :=
  match clocData with
  | none => { sloc := 0, test_lines_per_kloc := 0 }
  | some entries =>
    let langStats := entries.filter (fun kv => !(kv.1 == "header" || kv.1 == "SUM"))
    let tot := slocFold langStats
    { sloc := (tot.1 : Int),
      test_lines_per_kloc :=
        if tot.1 > 0 then ((tot.2 : Rat) / (tot.1 : Rat)) * 1000 else 0 }

/-- One workflow run as `get_project_history` reads it: its status,
conclusion and creation time (Unix seconds, UTC). -/
structure WorkflowRun where
  status : String
  conclusion : String
  created_at : Int
deriving DecidableEq, Repr

/-- The dict returned by `get_project_history`. -/
structure ProjectHistory where
  prev_pass : Int
  elapsed_days_last_build : Int
  project_fail_history : Rat
  project_fail_recent : Rat
  commit_interval : Rat
  project_age : Int
deriving DecidableEq, Repr

/-- The initial defaults dict of `get_project_history` — note
`prev_pass` starts at 1, all others at 0. -/
def historyDefaults : ProjectHistory :=
  { prev_pass := 1, elapsed_days_last_build := 0, project_fail_history := 0,
    project_fail_recent := 0, commit_interval := 0, project_age := 0 }

/-- `get_project_history()` over explicit inputs: the repository
creation time (`none` when the metadata request failed), the decoded
`workflow_runs` list ordered most-recent-first (`none` when the runs
request failed), the author dates of the two latest commits (`none` when
that request failed), and the current clock reading — all times Unix
seconds, UTC.  `timedelta.days` is flooring division by 86400;
`total_seconds()/3600` is exact rational division. -/
def get_project_history (repoCreatedAt : Option Int)
    (runsData : Option (List WorkflowRun)) (commitDates : Option (List Int))
    (now : Int) : ProjectHistory :=
  let f0 := historyDefaults
  let f1 :=
    match repoCreatedAt with
    | some c => { f0 with project_age := Int.fdiv (now - c) 86400 }
    | none => f0
  let f2 :=
    match runsData with
    | some runs =>
      match runs.filter (fun r => r.status == "completed") with
      | [] => f1
      | lastRun :: rest =>
        let completed := lastRun :: rest
        let fa :=
          { f1 with
            prev_pass := if lastRun.conclusion == "success" then 1 else 0,
            elapsed_days_last_build := Int.fdiv (now - lastRun.created_at) 86400 }
        let outcomes : List Nat :=
          completed.map (fun r => if r.conclusion == "success" then 1 else 0)
        let recents := outcomes.take 5
        { fa with
          project_fail_history := 1 - ((outcomes.sum : Rat) / (outcomes.length : Rat)),
          project_fail_recent := 1 - ((recents.sum : Rat) / (recents.length : Rat)) }
    | none => f1
  match commitDates with
  | some (t0 :: t1 :: _) =>
    { f2 with commit_interval := ((t0 - t1 : Int) : Rat) / 3600 }
  | _ => f2

/-- The completed-run sublist, preserving the most-recent-first order. -/
def completedOf (runsData : Option (List WorkflowRun)) : List WorkflowRun :=
  (runsData.getD []).filter (fun r => r.status == "completed")

/-- The most recent completed run, when one exists. -/
def mostRecentCompleted (runsData : Option (List WorkflowRun)) :
    Option WorkflowRun :=
  (completedOf runsData).head?

/-- Number of runs in the list whose conclusion is success. -/
def successCount (runs : List WorkflowRun) : Nat :=
  (runs.filter (fun r => r.conclusion == "success")).length

end Predict

/-! Spec-side formulations, written from the spec's words, used to state
the claims against the code-derived definitions above. -/

/-- A parsed `--numstat` line as the spec describes one: a numeric
insertion count, a numeric deletion count and a path; `none` when the
line has fewer than three TAB fields or a non-numeric count column. -/
def lineStats (line : String) : Option (Nat × Nat × String) :=
  match pySplitChar '\t' line with
  | p0 :: p1 :: p2 :: _ =>
    if isDigitStr p0 && isDigitStr p1 then
      some (digitsToNat p0.toList, digitsToNat p1.toList, p2)
    else none
  | _ => none

/-- All numeric insertion+deletion pairs across the listed files of a
diff output. -/
def numericPairs (diffOutput : String) : List (Nat × Nat × String) :=
  (pySplitChar '\n' diffOutput).filterMap lineStats

/-- The comment markers the spec lists for the SLOC heuristic. -/
def commentMarkers : List String := ["//", "*", "/*", "#"]

/-- The spec's description of a counted line: non-empty after trimming
whitespace and not beginning with one of the comment markers. -/
def specCountable (line : String) : Bool :=
  pyStrip line ≠ "" &&
    !(commentMarkers.any (fun m => pyStartsWith (pyStrip line) m))

/-- A 10-line file with 3 blank lines and 2 lines beginning with a
comment marker, as in the spec's SLOC example. -/
def exampleFile : List String :=
  ["int a;", "", "", "", "// x", "* y", "b;", "c;", "d;", "e;"]

/-- The churn field names of the canonical ChurnSummary. -/
def churnFieldNames : List String :=
  ["src_churn", "files_added", "files_deleted", "files_modified",
   "test_churn", "tests_added", "tests_deleted"]

/-! Helper lemmas. -/

/-- The field names of an assembled row are exactly the column list. -/
theorem map_fst_assembleRow (cols : List String)
    (maps : List (List (String × Value))) :
    (assembleRow cols maps).map Prod.fst = cols := by
  induction cols with
  | nil => rfl
  | cons d rest ih => simpa [assembleRow] using ih

/-- Looking a schema column up in an assembled row yields the merged
value, defaulted to the integer 0. -/
theorem lookup_assembleRow (cols : List String)
    (maps : List (List (String × Value))) (c : String) (hc : c ∈ cols) :
    (assembleRow cols maps).lookup c =
      some ((lookupMerged maps c).getD (Value.int 0)) := by
  induction cols with
  | nil => cases hc
  | cons d rest ih =>
    rcases List.mem_cons.mp hc with h | h
    · subst h
      simp [assembleRow, List.lookup]
    · by_cases hd : c = d
      · subst hd
        simp [assembleRow, List.lookup]
      · have : (c == d) = false := beq_false_of_ne hd
        simpa [assembleRow, List.lookup, this] using ih h

/-- Counting matching elements by a fold equals `countP`. -/
theorem foldl_count (p : String → Bool) (lines : List String) (n : Nat) :
    lines.foldl (fun acc line => if p line then acc + 1 else acc) n =
      n + lines.countP p := by
  induction lines generalizing n with
  | nil => simp
  | cons l rest ih =>
    by_cases h : p l
    · simp [List.countP_cons, h, ih]
      omega
    · simp [List.countP_cons, h, ih]

/-- The code's per-line test agrees with the spec's description of a
counted line. -/
theorem lineCounts_eq_specCountable (line : String) :
    HistoricalCollector.lineCounts line = specCountable line := by
  simp only [HistoricalCollector.lineCounts, specCountable, commentMarkers,
    List.any_cons, List.any_nil, Bool.or_false, Bool.or_assoc]

/-- The SLOC line loop counts exactly the spec-countable lines. -/
theorem slocLines_eq_countP (lines : List String) :
    HistoricalCollector.slocLines lines = lines.countP specCountable := by
  have hfun : HistoricalCollector.lineCounts = specCountable :=
    funext lineCounts_eq_specCountable
  unfold HistoricalCollector.slocLines
  rw [show (fun (acc : Nat) line =>
        if HistoricalCollector.lineCounts line then acc + 1 else acc) =
      fun acc line => if specCountable line then acc + 1 else acc by
    rw [hfun]]
  simpa using foldl_count specCountable lines 0

/-- Directory entries whose path contains `".git"` contribute nothing to
the walk fold. -/
theorem sloc_foldl_filter (tree : List HistoricalCollector.WalkEntry)
    (n : Nat) :
    tree.foldl HistoricalCollector.slocEntryStep n =
      (tree.filter (fun e => !containsSub e.root ".git")).foldl
        HistoricalCollector.slocEntryStep n := by
  induction tree generalizing n with
  | nil => rfl
  | cons e rest ih =>
    by_cases h : containsSub e.root ".git"
    · have hstep : HistoricalCollector.slocEntryStep n e = n := by
        simp [HistoricalCollector.slocEntryStep, h]
      simp [List.filter_cons, h, hstep, ih]
    · simp [List.filter_cons, h, ih]

theorem churnStep_eq_lineStats (acc : HistoricalCollector.ChurnAcc) (line : String) :
    HistoricalCollector.churnStep acc line =
      match lineStats line with
      | none => acc
      | some (ins, del, path) =>
        if pathIsTest path then
          { acc with testIns := acc.testIns + ins, testDel := acc.testDel + del }
        else
          { acc with srcIns := acc.srcIns + ins, srcDel := acc.srcDel + del } := by
  unfold HistoricalCollector.churnStep lineStats
  split
  next x p0 p1 p2 tail heq =>
    by_cases hd : (isDigitStr p0 && isDigitStr p1) = true
    · simp [hd]
    · simp [hd]
  next => rfl

theorem sum_filter_split {α : Type} (p : α → Bool) (f : α → Nat) (l : List α) :
    ((l.filter p).map f).sum + ((l.filter (fun a => !p a)).map f).sum =
      (l.map f).sum := by
  induction l with
  | nil => rfl
  | cons a t ih =>
    by_cases h : p a = true
    · simp [List.filter_cons, h]
      omega
    · simp [List.filter_cons, h]
      omega

theorem churn_foldl_sums (lines : List String) (acc : HistoricalCollector.ChurnAcc) :
    ((lines.foldl HistoricalCollector.churnStep acc).testIns +
        (lines.foldl HistoricalCollector.churnStep acc).testDel =
      acc.testIns + acc.testDel +
        (((lines.filterMap lineStats).filter (fun t => pathIsTest t.2.2)).map
          (fun t => t.1 + t.2.1)).sum) ∧
    ((lines.foldl HistoricalCollector.churnStep acc).srcIns +
        (lines.foldl HistoricalCollector.churnStep acc).srcDel =
      acc.srcIns + acc.srcDel +
        (((lines.filterMap lineStats).filter (fun t => !pathIsTest t.2.2)).map
          (fun t => t.1 + t.2.1)).sum) := by
  induction lines generalizing acc with
  | nil => simp
  | cons l rest ih =>
    simp only [List.foldl_cons, List.filterMap_cons]
    rw [churnStep_eq_lineStats]
    cases hls : lineStats l with
    | none => simpa using ih acc
    | some t =>
      obtain ⟨ins, del, path⟩ := t
      by_cases hp : pathIsTest path = true
      · simp only [hp, if_true]
        obtain ⟨h1, h2⟩ :=
          ih { acc with testIns := acc.testIns + ins, testDel := acc.testDel + del }
        simp [List.filter_cons, hp] at h1 h2 ⊢
        constructor
        · omega
        · omega
      · simp only [Bool.not_eq_true] at hp
        simp only [hp, if_false]
        obtain ⟨h1, h2⟩ :=
          ih { acc with srcIns := acc.srcIns + ins, srcDel := acc.srcDel + del }
        simp [List.filter_cons, hp] at h1 h2 ⊢
        constructor
        · omega
        · omega

theorem get_code_churn_fields (revListOutput diffOutput : String)
    (hl : ¬ (splitWS revListOutput).length < 2) (hd : diffOutput ≠ "") :
    (HistoricalCollector.get_code_churn revListOutput diffOutput).test_churn =
      (((pySplitChar '\n' diffOutput).foldl HistoricalCollector.churnStep
          ⟨0, 0, 0, 0⟩).testIns +
        ((pySplitChar '\n' diffOutput).foldl HistoricalCollector.churnStep
          ⟨0, 0, 0, 0⟩).testDel : Nat) ∧
    (HistoricalCollector.get_code_churn revListOutput diffOutput).src_churn =
      (((pySplitChar '\n' diffOutput).foldl HistoricalCollector.churnStep
          ⟨0, 0, 0, 0⟩).srcIns +
        ((pySplitChar '\n' diffOutput).foldl HistoricalCollector.churnStep
          ⟨0, 0, 0, 0⟩).srcDel : Nat) ∧
    (HistoricalCollector.get_code_churn revListOutput diffOutput).files_modified =
      ((pySplitChar '\n' diffOutput).length : Int) := by
  unfold HistoricalCollector.get_code_churn
  rw [if_neg hl, if_neg hd]
  exact ⟨rfl, rfl, rfl⟩

/-- The per-run success indicator sum of `outcomes` equals the number of
successful runs. -/
theorem sum_indicator (runs : List Predict.WorkflowRun) :
    (runs.map (fun r => if r.conclusion == "success" then (1 : Nat) else 0)).sum =
      Predict.successCount runs := by
  induction runs with
  | nil => rfl
  | cons r t ih =>
    by_cases hc : r.conclusion = "success" <;>
      simp [Predict.successCount, List.filter_cons, hc] at ih ⊢ <;>
      omega

/-- The failure-ratio fields of `get_project_history` when the completed
sublist is non-empty, exactly as the code computes them. -/
theorem get_project_history_ratios (rc : Option Int)
    (runs : List Predict.WorkflowRun) (cd : Option (List Int)) (now : Int)
    (lastRun : Predict.WorkflowRun) (rest2 : List Predict.WorkflowRun)
    (h : runs.filter (fun r => r.status == "completed") = lastRun :: rest2) :
    (Predict.get_project_history rc (some runs) cd now).project_fail_history =
      1 - ((((lastRun :: rest2).map
          (fun r => if r.conclusion == "success" then (1 : Nat) else 0)).sum : Rat) /
        (((lastRun :: rest2).map
          (fun r => if r.conclusion == "success" then (1 : Nat) else 0)).length : Rat)) ∧
    (Predict.get_project_history rc (some runs) cd now).project_fail_recent =
      1 - (((((lastRun :: rest2).map
          (fun r => if r.conclusion == "success" then (1 : Nat) else 0)).take 5).sum : Rat) /
        ((((lastRun :: rest2).map
          (fun r => if r.conclusion == "success" then (1 : Nat) else 0)).take 5).length : Rat)) := by
  rcases rc with _ | c <;>
    rcases cd with _ | ⟨_ | ⟨t0, _ | ⟨t1, rest⟩⟩⟩ <;>
    (simp only [Predict.get_project_history]; rw [h]; exact ⟨rfl, rfl⟩)

/-- The cloc accumulation loop splits the per-language code counts into
the non-test total and the test total. -/
theorem slocStep_foldl (l : List (String × Option Nat)) (p : Nat × Nat) :
    l.foldl Predict.slocStep p =
      (p.1 + ((l.filter (fun kv =>
          !(Predict.testLangNames.contains (pyLower kv.1)))).map
          (fun kv => (kv.2).getD 0)).sum,
       p.2 + ((l.filter (fun kv =>
          Predict.testLangNames.contains (pyLower kv.1))).map
          (fun kv => (kv.2).getD 0)).sum) := by
  induction l generalizing p with
  | nil => simp
  | cons kv t ih =>
    by_cases h : pyLower kv.1 ∈ Predict.testLangNames <;>
      simp [Predict.slocStep, List.filter_cons, h, ih] <;>
      omega

/-- The two fields of `get_sloc_and_test_lines` on decoded cloc data,
written through the accumulation loop. -/
theorem get_sloc_fields (entries : List (String × Option Nat)) :
    (Predict.get_sloc_and_test_lines (some entries)).sloc =
      ((Predict.slocFold (entries.filter
        (fun kv => !(kv.1 == "header" || kv.1 == "SUM")))).1 : Int) ∧
    (Predict.get_sloc_and_test_lines (some entries)).test_lines_per_kloc =
      (if (Predict.slocFold (entries.filter
          (fun kv => !(kv.1 == "header" || kv.1 == "SUM")))).1 > 0 then
        ((Predict.slocFold (entries.filter
          (fun kv => !(kv.1 == "header" || kv.1 == "SUM")))).2 : Rat) /
          ((Predict.slocFold (entries.filter
          (fun kv => !(kv.1 == "header" || kv.1 == "SUM")))).1 : Rat) * 1000
       else 0) :=
  ⟨rfl, rfl⟩

/-- An empty diff output (failed or empty diff command) leaves the
churn dict at its zero defaults. -/
theorem get_code_churn_empty_diff (revListOutput : String) :
    HistoricalCollector.get_code_churn revListOutput "" =
      HistoricalCollector.churnZero := by
  unfold HistoricalCollector.get_code_churn
  by_cases h : (splitWS revListOutput).length < 2
  · rw [if_pos h]
  · rw [if_neg h, if_pos rfl]

/-! Claim theorems. -/

/-- C1 (amended): every assembled row lists exactly its emitter's schema
fields in schema order regardless of the partial maps and their
insertion order; a schema field absent from every partial map is the
integer 0, never omitted; assembling from no partial maps yields all
zeros, and from caller-supplied commit metadata alone yields that
metadata followed by zeros; the batch header `FEATURE_COLS` equals the
canonical ordered schema including `commit_sha` and `commit_date`, while
the incremental header `feature_cols` equals the canonical schema with
exactly those two fields removed. -/
theorem C1_row_schema_assembly :
    (∀ cols maps, (assembleRow cols maps).map Prod.fst = cols) ∧
    (∀ maps c, c ∈ HistoricalCollector.FEATURE_COLS →
      lookupMerged maps c = none →
      (assembleRow HistoricalCollector.FEATURE_COLS maps).lookup c =
        some (Value.int 0)) ∧
    (∀ sha date,
      assembleRow HistoricalCollector.FEATURE_COLS
        [[("commit_sha", Value.str sha), ("commit_date", Value.str date)]] =
      ("commit_sha", Value.str sha) :: ("commit_date", Value.str date) ::
        (HistoricalCollector.FEATURE_COLS.drop 2).map
          (fun c => (c, Value.int 0))) ∧
    (assembleRow HistoricalCollector.FEATURE_COLS [] =
      HistoricalCollector.FEATURE_COLS.map (fun c => (c, Value.int 0))) ∧
    HistoricalCollector.FEATURE_COLS = canonicalSchema ∧
    Predict.feature_cols =
      canonicalSchema.filter
        (fun c => !(c == "commit_sha" || c == "commit_date")) := by
  refine ⟨map_fst_assembleRow, ?_, fun sha date => rfl, rfl, rfl, by decide⟩
  intro maps c hc h
  rw [lookup_assembleRow _ _ _ hc, h]
  rfl

/-- C1 witness: a schema field (`src_churn`) supplied by no partial map
is emitted as the integer 0. -/
theorem C1_row_schema_assembly_witness :
    (assembleRow HistoricalCollector.FEATURE_COLS
      [[("sloc", Value.int 7)]]).lookup "src_churn" = some (Value.int 0) :=
  C1_row_schema_assembly.2.1 [[("sloc", Value.int 7)]] "src_churn"
    (by decide) rfl

/-- C1 counterexample: the incremental emitter's header is not the
canonical schema — it omits `commit_sha` (and `commit_date`), so the
claim's "emitted header/field list equals the canonical ordered schema
exactly, including commit_sha and commit_date" fails for the rows
`predict.py` emits. -/
theorem C1_row_schema_assembly_counterexample :
    Predict.feature_cols ≠ canonicalSchema ∧
    "commit_sha" ∉ Predict.feature_cols ∧
    "commit_sha" ∈ HistoricalCollector.FEATURE_COLS := by
  decide

/-- C4: a commit with fewer than two parents (the `rev-list` output has
fewer than two whitespace-separated fields) yields the all-zero churn
dict, whatever the diff output says, and every canonical churn field of
the assembled row — including the added/deleted counts the dict never
carries — is the integer 0. -/
theorem C4_root_commit_zero_churn (revListOutput diffOutput : String)
    (h : (splitWS revListOutput).length < 2) :
    HistoricalCollector.get_code_churn revListOutput diffOutput =
      HistoricalCollector.churnZero ∧
    ∀ f ∈ churnFieldNames,
      (assembleRow HistoricalCollector.FEATURE_COLS
        [HistoricalCollector.churnToMap
          (HistoricalCollector.get_code_churn revListOutput diffOutput)]).lookup
        f = some (Value.int 0) := by
  have hz : HistoricalCollector.get_code_churn revListOutput diffOutput =
      HistoricalCollector.churnZero := by
    unfold HistoricalCollector.get_code_churn
    rw [if_pos h]
  refine ⟨hz, ?_⟩
  rw [hz]
  decide

/-- C4 witness: a root commit's `rev-list --parents` output has a single
field, and the churn computation returns the zero dict on it. -/
theorem C4_root_commit_zero_churn_witness :
    (splitWS "abc123").length < 2 ∧
    HistoricalCollector.get_code_churn "abc123" "1\t2\tA.java" =
      HistoricalCollector.churnZero :=
  ⟨by decide, (C4_root_commit_zero_churn "abc123" "1\t2\tA.java" (by decide)).1⟩

/-- C6: the SLOC counter counts exactly the lines that are non-empty
after trimming whitespace and do not begin with one of the comment
markers `//`, `*`, `/*`, `#` — both for the bare line loop and for an
included file processed by the walk — and the spec's example holds: a
10-line file with 3 blank lines and 2 comment-leading lines contributes
`sloc = 5`. -/
theorem C6_sloc_counts_noncomment_lines :
    (∀ lines, HistoricalCollector.slocLines lines =
      lines.countP specCountable) ∧
    (∀ root nm lines, containsSub root ".git" = false →
      HistoricalCollector.sourceExtensions.any
        (fun ext => pyEndsWith nm ext) = true →
      HistoricalCollector.get_sloc_simple [⟨root, [(nm, lines)]⟩] =
        lines.countP specCountable) ∧
    (exampleFile.length = 10 ∧
     exampleFile.countP (fun l => pyStrip l == "") = 3 ∧
     exampleFile.countP
       (fun l => (pyStrip l != "") &&
         commentMarkers.any (fun m => pyStartsWith (pyStrip l) m)) = 2 ∧
     HistoricalCollector.slocLines exampleFile = 5) := by
  refine ⟨slocLines_eq_countP, ?_, by decide⟩
  intro root nm lines hroot hext
  simp [HistoricalCollector.get_sloc_simple, HistoricalCollector.slocEntryStep,
    HistoricalCollector.slocFileStep, hroot, hext, slocLines_eq_countP]

/-- C6 witness: the walk on a single included file counts its
spec-countable lines, and on the example file that count is 5. -/
theorem C6_sloc_counts_noncomment_lines_witness :
    HistoricalCollector.get_sloc_simple
      [⟨"repo/src", [("A.java", exampleFile)]⟩] =
      exampleFile.countP specCountable ∧
    exampleFile.countP specCountable = 5 :=
  ⟨C6_sloc_counts_noncomment_lines.2.1 "repo/src" "A.java" exampleFile
      (by decide) (by decide),
    by decide⟩

/-- C10: the batch SLOC counter drops every directory whose path
contains the substring `".git"` anywhere — the walk result equals the
walk over the listing with those directories filtered out — and in
particular a source file under a directory named `my.github` is silently
omitted, while the same file under `src` is counted. -/
theorem C10_dot_git_substring_skip :
    (∀ tree, HistoricalCollector.get_sloc_simple tree =
      HistoricalCollector.get_sloc_simple
        (tree.filter (fun e => !containsSub e.root ".git"))) ∧
    containsSub "repo/my.github" ".git" = true ∧
    HistoricalCollector.get_sloc_simple
      [⟨"repo/my.github", [("A.java", ["int x;"])]⟩] = 0 ∧
    HistoricalCollector.get_sloc_simple
      [⟨"repo/src", [("A.java", ["int x;"])]⟩] = 1 := by
  refine ⟨fun tree => ?_, by decide, by decide, by decide⟩
  exact sloc_foldl_filter tree 0

/-- C2 (amended): in the batch variant, src_churn and test_churn are the
sums of the numeric insertion+deletion pairs across the listed files,
each file routed to test_churn when its path contains "test"
case-insensitively and to src_churn otherwise, and non-numeric stat
lines (binary files) are skipped from the churn sums; the incremental
variant satisfies the same partition on fully numeric diffs but raises
an uncaught ValueError on a non-numeric stat line instead of skipping
it. -/
theorem C2_churn_partition :
    (∀ revListOutput diffOutput, 2 ≤ (splitWS revListOutput).length →
      diffOutput ≠ "" →
      (HistoricalCollector.get_code_churn revListOutput diffOutput).test_churn =
        (Nat.cast ((((numericPairs diffOutput).filter (fun t => pathIsTest t.2.2)).map
            (fun t => t.1 + t.2.1)).sum) : Int) ∧
      (HistoricalCollector.get_code_churn revListOutput diffOutput).src_churn =
        (Nat.cast ((((numericPairs diffOutput).filter (fun t => !pathIsTest t.2.2)).map
            (fun t => t.1 + t.2.1)).sum) : Int) ∧
      (HistoricalCollector.get_code_churn revListOutput diffOutput).src_churn +
          (HistoricalCollector.get_code_churn revListOutput diffOutput).test_churn =
        (Nat.cast (((numericPairs diffOutput).map (fun t => t.1 + t.2.1)).sum) : Int)) ∧
    Predict.get_code_churn "5\t1\tsrc/A.java\n-\t-\tlogo.png" = none := by
  constructor
  · intro revListOutput diffOutput hrev hdiff
    have hlt : ¬ (splitWS revListOutput).length < 2 := by omega
    obtain ⟨h1, h2⟩ :=
      churn_foldl_sums (pySplitChar '\n' diffOutput) ⟨0, 0, 0, 0⟩
    obtain ⟨ht, hs, hf⟩ := get_code_churn_fields revListOutput diffOutput hlt hdiff
    dsimp only at h1 h2
    simp only [zero_add] at h1 h2
    simp only [numericPairs]
    refine ⟨?_, ?_, ?_⟩
    · rw [ht, h1]
    · rw [hs, h2]
    · rw [ht, hs]
      have hsplit := sum_filter_split (fun t => pathIsTest t.2.2)
        (fun t => t.1 + t.2.1) ((pySplitChar '\n' diffOutput).filterMap lineStats)
      rw [← Nat.cast_add, Nat.cast_inj]
      omega
  · decide

/-- C2 witness: on a concrete two-parent commit diff with one source
and one test file, src_churn + test_churn equals the total numeric
insertion+deletion sum. -/
theorem C2_churn_partition_witness :
    2 ≤ (splitWS "c p").length ∧
    (HistoricalCollector.get_code_churn "c p"
        "5\t1\tsrc/A.java\n3\t4\tsrc/test/T.java").src_churn +
      (HistoricalCollector.get_code_churn "c p"
        "5\t1\tsrc/A.java\n3\t4\tsrc/test/T.java").test_churn =
      Nat.cast (((numericPairs "5\t1\tsrc/A.java\n3\t4\tsrc/test/T.java").map
        (fun t => t.1 + t.2.1)).sum) :=
  ⟨by decide,
    (C2_churn_partition.1 "c p" "5\t1\tsrc/A.java\n3\t4\tsrc/test/T.java"
      (by decide) (by decide)).2.2⟩

/-- C2 counterexample: on a diff whose second line is a binary-file
stat (`-` insertion/deletion columns), the incremental variant fails
(uncaught ValueError, modelled as `none`) instead of skipping the line,
while the batch variant skips it and keeps the numeric churn. -/
theorem C2_churn_partition_counterexample :
    Predict.get_code_churn "5\t1\tsrc/A.java\n-\t-\tlogo.png" = none ∧
    HistoricalCollector.get_code_churn "c p"
        "5\t1\tsrc/A.java\n-\t-\tlogo.png" =
      { src_churn := 6, files_modified := 2, test_churn := 0 } := by
  decide

/-- C3 (corrected): prev_pass is decided by the most recent completed
run when one exists — 1 iff its conclusion is success — but when no
completed run exists (including when no run data is available at all)
prev_pass keeps its default of 1, not 0. -/
theorem C3_prev_pass_resolution (rc : Option Int)
    (runsData : Option (List Predict.WorkflowRun)) (cd : Option (List Int))
    (now : Int) :
    (Predict.get_project_history rc runsData cd now).prev_pass =
      match Predict.mostRecentCompleted runsData with
      | none => 1
      | some r => if r.conclusion == "success" then 1 else 0 := by
  unfold Predict.get_project_history Predict.mostRecentCompleted
    Predict.completedOf
  rcases runsData with _ | runs
  · rcases rc with _ | c <;>
      rcases cd with _ | ⟨_ | ⟨t0, _ | ⟨t1, rest⟩⟩⟩ <;>
      simp [Predict.historyDefaults]
  · cases h : runs.filter (fun r => r.status == "completed") with
    | nil =>
      rcases rc with _ | c <;>
        rcases cd with _ | ⟨_ | ⟨t0, _ | ⟨t1, rest⟩⟩⟩ <;>
        simp [h, Predict.historyDefaults]
    | cons lastRun rest2 =>
      rcases rc with _ | c <;>
        rcases cd with _ | ⟨_ | ⟨t0, _ | ⟨t1, rest⟩⟩⟩ <;>
        simp [h, Predict.historyDefaults]

/-- C3 counterexample: with no run data at all, and likewise when runs
exist but none is completed, prev_pass is 1 — the claim says it should
be 0 when no completed run exists. -/
theorem C3_prev_pass_resolution_counterexample :
    (Predict.get_project_history none none none 0).prev_pass = 1 ∧
    (Predict.get_project_history none (some [⟨"in_progress", "x", 0⟩])
      none 0).prev_pass = 1 ∧
    ¬ (Predict.get_project_history none none none 0).prev_pass = 0 := by
  decide

/-- C5: project_fail_history is 1 minus the success ratio over all
supplied completed runs, project_fail_recent the same over the 5 most
recent completed runs (fewer if fewer exist); both are 0 when zero
completed runs are supplied and both are 1 when every supplied completed
run failed. -/
theorem C5_fail_ratios (rc : Option Int)
    (runsData : Option (List Predict.WorkflowRun)) (cd : Option (List Int))
    (now : Int) :
    (Predict.completedOf runsData = [] →
      (Predict.get_project_history rc runsData cd now).project_fail_history = 0 ∧
      (Predict.get_project_history rc runsData cd now).project_fail_recent = 0) ∧
    (Predict.completedOf runsData ≠ [] →
      (Predict.get_project_history rc runsData cd now).project_fail_history =
        1 - ((Predict.successCount (Predict.completedOf runsData) : Rat) /
          ((Predict.completedOf runsData).length : Rat)) ∧
      (Predict.get_project_history rc runsData cd now).project_fail_recent =
        1 - ((Predict.successCount ((Predict.completedOf runsData).take 5) : Rat) /
          (((Predict.completedOf runsData).take 5).length : Rat))) ∧
    ((∀ r ∈ Predict.completedOf runsData, ¬ r.conclusion = "success") →
      Predict.completedOf runsData ≠ [] →
      (Predict.get_project_history rc runsData cd now).project_fail_history = 1 ∧
      (Predict.get_project_history rc runsData cd now).project_fail_recent = 1) := by
  have hmain : Predict.completedOf runsData ≠ [] →
      (Predict.get_project_history rc runsData cd now).project_fail_history =
        1 - ((Predict.successCount (Predict.completedOf runsData) : Rat) /
          ((Predict.completedOf runsData).length : Rat)) ∧
      (Predict.get_project_history rc runsData cd now).project_fail_recent =
        1 - ((Predict.successCount ((Predict.completedOf runsData).take 5) : Rat) /
          (((Predict.completedOf runsData).take 5).length : Rat)) := by
    intro hne
    rcases runsData with _ | runs
    · exact absurd rfl hne
    · cases hh : runs.filter (fun r => r.status == "completed") with
      | nil =>
        exact absurd (by simpa [Predict.completedOf] using hh) hne
      | cons lastRun rest2 =>
        obtain ⟨h1, h2⟩ :=
          get_project_history_ratios rc runs cd now lastRun rest2 hh
        have hc : Predict.completedOf (some runs) = lastRun :: rest2 := by
          simpa [Predict.completedOf] using hh
        rw [hc, h1, h2]
        constructor
        · rw [sum_indicator, List.length_map]
        · rw [← List.map_take, sum_indicator, List.length_map]
  have hempty : Predict.completedOf runsData = [] →
      (Predict.get_project_history rc runsData cd now).project_fail_history = 0 ∧
      (Predict.get_project_history rc runsData cd now).project_fail_recent = 0 := by
    intro he
    rcases runsData with _ | runs
    · rcases rc with _ | c <;>
        rcases cd with _ | ⟨_ | ⟨t0, _ | ⟨t1, rest⟩⟩⟩ <;>
        simp [Predict.get_project_history, Predict.historyDefaults]
    · have h : runs.filter (fun r => r.status == "completed") = [] := by
        simpa [Predict.completedOf] using he
      rcases rc with _ | c <;>
        rcases cd with _ | ⟨_ | ⟨t0, _ | ⟨t1, rest⟩⟩⟩ <;>
        (simp only [Predict.get_project_history]; rw [h]; exact ⟨rfl, rfl⟩)
  refine ⟨hempty, hmain, ?_⟩
  intro hall hne
  obtain ⟨h1, h2⟩ := hmain hne
  have hz : Predict.successCount (Predict.completedOf runsData) = 0 := by
    have hf : (Predict.completedOf runsData).filter
        (fun r => r.conclusion == "success") = [] :=
      List.filter_eq_nil_iff.mpr (by intro a ha; simpa using hall a ha)
    simp [Predict.successCount, hf]
  have hz5 : Predict.successCount
      ((Predict.completedOf runsData).take 5) = 0 := by
    have hf : ((Predict.completedOf runsData).take 5).filter
        (fun r => r.conclusion == "success") = [] :=
      List.filter_eq_nil_iff.mpr
        (by intro a ha; simpa using hall a (List.take_subset _ _ ha))
    simp [Predict.successCount, hf]
  rw [h1, h2, hz, hz5]
  constructor <;> simp

/-- C5 witness: two completed runs, both failed — both failure ratios
are 1. -/
theorem C5_fail_ratios_witness :
    Predict.completedOf (some [⟨"completed", "failure", 0⟩,
      ⟨"completed", "failure", 100⟩]) ≠ [] ∧
    (Predict.get_project_history none (some [⟨"completed", "failure", 0⟩,
      ⟨"completed", "failure", 100⟩]) none 0).project_fail_history = 1 ∧
    (Predict.get_project_history none (some [⟨"completed", "failure", 0⟩,
      ⟨"completed", "failure", 100⟩]) none 0).project_fail_recent = 1 := by
  refine ⟨by decide, ?_⟩
  have h := (C5_fail_ratios none (some [⟨"completed", "failure", 0⟩,
    ⟨"completed", "failure", 100⟩]) none 0).2.2 (by decide) (by decide)
  exact h

/-- C7: whenever cloc data decodes, test_lines_per_kloc equals
test_lines / production_lines * 1000 with production_lines being the
emitted sloc (the non-test code-line total), and it is 0 when
production_lines is zero — the division is guarded and never executes
on a zero denominator; failed/unparsable cloc output leaves both fields
zero. -/
theorem C7_test_lines_per_kloc (entries : List (String × Option Nat)) :
    (Predict.get_sloc_and_test_lines (some entries)).sloc =
      (Nat.cast ((((entries.filter
          (fun kv => !(kv.1 == "header" || kv.1 == "SUM"))).filter
          (fun kv => !(Predict.testLangNames.contains (pyLower kv.1)))).map
          (fun kv => (kv.2).getD 0)).sum) : Int) ∧
    ((Predict.get_sloc_and_test_lines (some entries)).sloc ≠ 0 →
      (Predict.get_sloc_and_test_lines (some entries)).test_lines_per_kloc =
        ((Nat.cast ((((entries.filter
            (fun kv => !(kv.1 == "header" || kv.1 == "SUM"))).filter
            (fun kv => Predict.testLangNames.contains (pyLower kv.1))).map
            (fun kv => (kv.2).getD 0)).sum) : Rat) /
          (Nat.cast ((((entries.filter
            (fun kv => !(kv.1 == "header" || kv.1 == "SUM"))).filter
            (fun kv => !(Predict.testLangNames.contains (pyLower kv.1)))).map
            (fun kv => (kv.2).getD 0)).sum) : Rat)) * 1000) ∧
    ((Predict.get_sloc_and_test_lines (some entries)).sloc = 0 →
      (Predict.get_sloc_and_test_lines (some entries)).test_lines_per_kloc = 0) ∧
    Predict.get_sloc_and_test_lines none = ⟨0, 0⟩ := by
  have hf : Predict.slocFold (entries.filter
      (fun kv => !(kv.1 == "header" || kv.1 == "SUM"))) =
      ((((entries.filter (fun kv => !(kv.1 == "header" || kv.1 == "SUM"))).filter
          (fun kv => !(Predict.testLangNames.contains (pyLower kv.1)))).map
          (fun kv => (kv.2).getD 0)).sum,
       (((entries.filter (fun kv => !(kv.1 == "header" || kv.1 == "SUM"))).filter
          (fun kv => Predict.testLangNames.contains (pyLower kv.1))).map
          (fun kv => (kv.2).getD 0)).sum) := by
    simpa [Predict.slocFold] using slocStep_foldl (entries.filter
      (fun kv => !(kv.1 == "header" || kv.1 == "SUM"))) (0, 0)
  obtain ⟨hs, hr⟩ := get_sloc_fields entries
  rw [hf] at hs hr
  dsimp only at hs hr
  refine ⟨hs, ?_, ?_, rfl⟩
  · intro hne
    rw [hs] at hne
    have hpos : 0 < (((entries.filter
        (fun kv => !(kv.1 == "header" || kv.1 == "SUM"))).filter
        (fun kv => !(Predict.testLangNames.contains (pyLower kv.1)))).map
        (fun kv => (kv.2).getD 0)).sum := by
      have : (((entries.filter
          (fun kv => !(kv.1 == "header" || kv.1 == "SUM"))).filter
          (fun kv => !(Predict.testLangNames.contains (pyLower kv.1)))).map
          (fun kv => (kv.2).getD 0)).sum ≠ 0 := by exact_mod_cast hne
      omega
    rw [hr, if_pos hpos]
  · intro h0
    rw [hs] at h0
    have hz : (((entries.filter
        (fun kv => !(kv.1 == "header" || kv.1 == "SUM"))).filter
        (fun kv => !(Predict.testLangNames.contains (pyLower kv.1)))).map
        (fun kv => (kv.2).getD 0)).sum = 0 := by exact_mod_cast h0
    rw [hr, hz]
    simp

/-- C7 witness: 100 production lines and 50 JUnit test lines yield
sloc 100 and test_lines_per_kloc 500. -/
theorem C7_test_lines_per_kloc_witness :
    (Predict.get_sloc_and_test_lines (some [("header", some 9),
      ("Java", some 100), ("JUnit", some 50), ("SUM", some 159)])).sloc ≠ 0 ∧
    (Predict.get_sloc_and_test_lines (some [("header", some 9),
      ("Java", some 100), ("JUnit", some 50),
      ("SUM", some 159)])).test_lines_per_kloc = 500 := by
  refine ⟨by decide, ?_⟩
  have h := (C7_test_lines_per_kloc [("header", some 9), ("Java", some 100),
    ("JUnit", some 50), ("SUM", some 159)]).2.1 (by decide)
  have h50 : (((([("header", some 9), ("Java", some 100), ("JUnit", some 50),
      ("SUM", some 159)] : List (String × Option Nat)).filter
      (fun kv => !(kv.1 == "header" || kv.1 == "SUM"))).filter
      (fun kv => Predict.testLangNames.contains (pyLower kv.1))).map
      (fun kv => (kv.2).getD 0)).sum = 50 := by decide
  have h100 : (((([("header", some 9), ("Java", some 100), ("JUnit", some 50),
      ("SUM", some 159)] : List (String × Option Nat)).filter
      (fun kv => !(kv.1 == "header" || kv.1 == "SUM"))).filter
      (fun kv => !(Predict.testLangNames.contains (pyLower kv.1)))).map
      (fun kv => (kv.2).getD 0)).sum = 100 := by decide
  rw [h50, h100] at h
  rw [h]
  norm_num

/-- C8 (amended): the batch walk never aborts on a failed checkout or
diff — it emits exactly one row per enumerated commit — and a commit
whose git commands failed (empty outputs) gets zero-filled churn fields;
its sloc field, however, is not zero-filled: it is recomputed from the
working tree as the failed checkout left it. -/
theorem C8_batch_walk_degrades :
    (∀ commits : List HistoricalCollector.CommitCtx,
      (HistoricalCollector.collectRows commits).length = commits.length) ∧
    (∀ c : HistoricalCollector.CommitCtx,
      c.revListOut = "" ∨ c.diffOut = "" →
      (assembleRow HistoricalCollector.FEATURE_COLS
        [HistoricalCollector.processCommit c]).lookup "src_churn" =
          some (Value.int 0) ∧
      (assembleRow HistoricalCollector.FEATURE_COLS
        [HistoricalCollector.processCommit c]).lookup "test_churn" =
          some (Value.int 0) ∧
      (assembleRow HistoricalCollector.FEATURE_COLS
        [HistoricalCollector.processCommit c]).lookup "files_modified" =
          some (Value.int 0) ∧
      (assembleRow HistoricalCollector.FEATURE_COLS
        [HistoricalCollector.processCommit c]).lookup "sloc" =
          some (Value.int (HistoricalCollector.get_sloc_simple c.tree))) := by
  refine ⟨fun commits => by simp [HistoricalCollector.collectRows], fun c h => ?_⟩
  have hz : HistoricalCollector.get_code_churn c.revListOut c.diffOut =
      HistoricalCollector.churnZero := by
    rcases h with h | h
    · unfold HistoricalCollector.get_code_churn
      rw [if_pos]
      rw [h]
      decide
    · rw [h]
      exact get_code_churn_empty_diff c.revListOut
  have hp : HistoricalCollector.processCommit c =
      [("commit_sha", Value.str c.sha), ("commit_date", Value.str c.date),
       ("src_churn", Value.int 0), ("files_modified", Value.int 0),
       ("test_churn", Value.int 0),
       ("sloc", Value.int (HistoricalCollector.get_sloc_simple c.tree))] := by
    unfold HistoricalCollector.processCommit
    rw [hz]
    rfl
  rw [hp]
  exact ⟨rfl, rfl, rfl, rfl⟩

/-- C8 witness: a commit whose commands both failed still yields a row
with src_churn 0. -/
theorem C8_batch_walk_degrades_witness :
    (assembleRow HistoricalCollector.FEATURE_COLS
      [HistoricalCollector.processCommit ⟨"abc", "d", "", "",
        [⟨"repo", [("A.java", ["int x;"])]⟩]⟩]).lookup "src_churn" =
      some (Value.int 0) :=
  (C8_batch_walk_degrades.2 ⟨"abc", "d", "", "",
    [⟨"repo", [("A.java", ["int x;"])]⟩]⟩ (Or.inl rfl)).1

/-- C8 counterexample: when both git commands fail but the (stale)
working tree holds a 2-line source file, the emitted row's sloc is 2,
not the zero fill the claim promises for SLOC fields; the walk still
emits the row. -/
theorem C8_batch_walk_degrades_counterexample :
    (HistoricalCollector.collectRows [⟨"abc", "d", "", "",
      [⟨"repo", [("A.java", ["int x;", "int y;"])]⟩]⟩]).length = 1 ∧
    (assembleRow HistoricalCollector.FEATURE_COLS
      [HistoricalCollector.processCommit ⟨"abc", "d", "", "",
        [⟨"repo", [("A.java", ["int x;", "int y;"])]⟩]⟩]).lookup "sloc" =
      some (Value.int 2) ∧
    ¬ (assembleRow HistoricalCollector.FEATURE_COLS
      [HistoricalCollector.processCommit ⟨"abc", "d", "", "",
        [⟨"repo", [("A.java", ["int x;", "int y;"])]⟩]⟩]).lookup "sloc" =
      some (Value.int 0) := by
  decide

/-- C9: the feature-extraction core is deterministic — two runs over
the same commit data, the same command outputs, the same working-tree
listing, the same decoded cloc and CI-history snapshots and the same
clock reading produce identical rows; the embedding makes every input
of the core explicit, and the row is a pure function of them. -/
theorem C9_deterministic_rows (c1 c2 : HistoricalCollector.CommitCtx)
    (rc1 rc2 : Option Int) (rd1 rd2 : Option (List Predict.WorkflowRun))
    (cd1 cd2 : Option (List Int)) (now1 now2 : Int)
    (cloc1 cloc2 : Option (List (String × Option Nat))) (diff1 diff2 : String)
    (hc : c1 = c2) (hrc : rc1 = rc2) (hrd : rd1 = rd2) (hcd : cd1 = cd2)
    (hn : now1 = now2) (hcl : cloc1 = cloc2) (hd : diff1 = diff2) :
    assembleRow HistoricalCollector.FEATURE_COLS
      [HistoricalCollector.processCommit c1] =
      assembleRow HistoricalCollector.FEATURE_COLS
        [HistoricalCollector.processCommit c2] ∧
    HistoricalCollector.collectRows [c1] =
      HistoricalCollector.collectRows [c2] ∧
    Predict.get_code_churn diff1 = Predict.get_code_churn diff2 ∧
    Predict.get_sloc_and_test_lines cloc1 =
      Predict.get_sloc_and_test_lines cloc2 ∧
    Predict.get_project_history rc1 rd1 cd1 now1 =
      Predict.get_project_history rc2 rd2 cd2 now2 := by
  subst hc hrc hrd hcd hn hcl hd
  exact ⟨rfl, rfl, rfl, rfl, rfl⟩

/-- C9 witness: re-running the batch row assembly on one concrete
commit context yields the identical row. -/
theorem C9_deterministic_rows_witness :
    assembleRow HistoricalCollector.FEATURE_COLS
      [HistoricalCollector.processCommit ⟨"a", "d", "a p", "1\t2\tA.java",
        [⟨"repo", [("A.java", ["int x;"])]⟩]⟩] =
      assembleRow HistoricalCollector.FEATURE_COLS
        [HistoricalCollector.processCommit ⟨"a", "d", "a p", "1\t2\tA.java",
          [⟨"repo", [("A.java", ["int x;"])]⟩]⟩] :=
  (C9_deterministic_rows ⟨"a", "d", "a p", "1\t2\tA.java",
      [⟨"repo", [("A.java", ["int x;"])]⟩]⟩
    ⟨"a", "d", "a p", "1\t2\tA.java", [⟨"repo", [("A.java", ["int x;"])]⟩]⟩
    none none none none none none 0 0 none none "" ""
    rfl rfl rfl rfl rfl rfl rfl).1

end PetclinicVerif
